import Mathlib

/-!
Shallow embedding of the authoritative Snake game room
(src/server/src/rooms/schema/SnakeGameState.ts, later room revision,
lines 393-793) and proofs about the claims of its specification.

JS numbers are modelled as rationals: every arithmetic operation the
claims touch (addition, subtraction, multiplication, comparison, the
remainder operator) is exact at the concrete inputs used.  The JS trig
calls Math.cos / Math.sin are modelled by an abstract pair of functions
of the degree heading (structure Trig below).
-/

namespace Snake

/- Batteries marks the arithmetic of Rat irreducible; re-allow unfolding so
that concrete states can be evaluated by the decide tactic. -/
attribute [local semireducible] Rat.add Rat.mul Rat.sub Rat.inv

/-- 2D point (class Vector2).  A SnakeSegment holds exactly one Vector2
position, so segment chains are modelled as lists of Vector2. -/
structure Vector2 where
  x : ℚ
  y : ℚ
deriving DecidableEq, Repr

instance : Inhabited Vector2 := ⟨⟨0, 0⟩⟩

/-- class Food: identity, position and value tier. -/
structure Food where
  id : String
  position : Vector2
  value : ℤ
deriving DecidableEq, Repr

/-- class Player: the fields the room simulation reads or writes.
name, color, skinId and totalLength are carried by the source schema but
never consulted by the simulation code under scrutiny. -/
structure Player where
  id : String
  score : ℤ
  angle : ℚ
  speed : ℚ
  alive : Bool
  segments : List Vector2
  boosting : Bool
  boostTime : ℚ
  headPosition : Vector2
deriving DecidableEq, Repr

/-- class SnakeGameState: the per-room world. -/
structure SnakeGameState where
  players : List (String × Player)
  foods : List (String × Food)
  worldWidth : ℚ
  worldHeight : ℚ
  maxFoods : ℕ
  tickRate : ℚ
  timestamp : ℚ
deriving DecidableEq, Repr

/-- World state together with counters of how many random draws the two
random food generators have made (the randomness itself is an external
input, structure Rng below). -/
structure Sim where
  st : SnakeGameState
  spawnN : ℕ
  deadN : ℕ
deriving DecidableEq, Repr

/-- External randomness: the n-th food produced by spawnFood, and for the
n-th spawnFoodFromDeadPlayer call the i-th draw of (raw segment index,
jitter x, jitter y, food id). -/
structure Rng where
  nextFood : ℕ → Food
  deadDraw : ℕ → ℕ → ℕ × ℚ × ℚ × String

/-- Abstract trigonometry: Math.cos (resp. Math.sin) applied to the
heading converted from degrees to radians. -/
structure Trig where
  cosDeg : ℚ → ℚ
  sinDeg : ℚ → ℚ

/-- Messages broadcast to clients by the eatFood handler path. -/
inductive Event where
  | foodConsumed (id playerId : String) (value : ℤ)
  | foodSpawned (id : String) (position : Vector2) (value : ℤ)
deriving DecidableEq, Repr

/-- Association-list model of a JS Map: lookup (Map.get). -/
def mget {α : Type} : List (String × α) → String → Option α
  | [], _ => none
  | (k1, v) :: rest, k => if k1 = k then some v else mget rest k

/-- Map.set: replace the value at an existing key in place (keeping its
insertion position), else append at the end. -/
def mset {α : Type} : List (String × α) → String → α → List (String × α)
  | [], k, v => [(k, v)]
  | (k1, v1) :: rest, k, v =>
      if k1 = k then (k, v) :: rest else (k1, v1) :: mset rest k v

/-- Map.delete: drop every entry with the given key.  Keys are unique in
every map the program builds, so this agrees with deleting one entry. -/
def mdelete {α : Type} : List (String × α) → String → List (String × α)
  | [], _ => []
  | (k1, v1) :: rest, k =>
      if k1 = k then mdelete rest k else (k1, v1) :: mdelete rest k

/-- Truncation toward zero, as used by the JS remainder operator. -/
def jsTrunc (q : ℚ) : ℤ := if 0 ≤ q then ⌊q⌋ else ⌈q⌉

/-- The JS remainder operator on numbers: a % b = a - b * trunc(a / b)
(the sign of the result follows the dividend). -/
def jsMod (a b : ℚ) : ℚ := a - b * (jsTrunc (a / b) : ℚ)

/-- wrapCoordinate (lines 788-792): toroidal wrap of one coordinate. -/
def wrapCoordinate (value max : ℚ) : ℚ :=
  if value < 0 then max + jsMod value max
  else if max ≤ value then jsMod value max
  else value

lemma jsMod_bounds_nonneg (a m : ℚ) (hm : 0 < m) (ha : 0 ≤ a) :
    0 ≤ jsMod a m ∧ jsMod a m < m := by
  have hq : (0 : ℚ) ≤ a / m := div_nonneg ha hm.le
  have hfl : (⌊a / m⌋ : ℚ) ≤ a / m := Int.floor_le _
  have hfu : a / m < ⌊a / m⌋ + 1 := Int.lt_floor_add_one _
  have hc : a / m * m = a := div_mul_cancel₀ a hm.ne'
  have h1 : (⌊a / m⌋ : ℚ) * m ≤ a / m * m :=
    mul_le_mul_of_nonneg_right hfl hm.le
  have h2 : a / m * m < ((⌊a / m⌋ : ℚ) + 1) * m :=
    mul_lt_mul_of_pos_right hfu hm
  unfold jsMod jsTrunc
  rw [if_pos hq]
  constructor
  · nlinarith
  · nlinarith

lemma jsMod_bounds_neg (a m : ℚ) (hm : 0 < m) (ha : a < 0) :
    -m < jsMod a m ∧ jsMod a m ≤ 0 := by
  have hq : ¬ (0 : ℚ) ≤ a / m := by
    simp only [not_le]
    exact div_neg_of_neg_of_pos ha hm
  have hcl : a / m ≤ (⌈a / m⌉ : ℚ) := Int.le_ceil _
  have hcu : (⌈a / m⌉ : ℚ) < a / m + 1 := Int.ceil_lt_add_one _
  have hc : a / m * m = a := div_mul_cancel₀ a hm.ne'
  have h1 : a / m * m ≤ (⌈a / m⌉ : ℚ) * m :=
    mul_le_mul_of_nonneg_right hcl hm.le
  have h2 : (⌈a / m⌉ : ℚ) * m < (a / m + 1) * m :=
    mul_lt_mul_of_pos_right hcu hm
  unfold jsMod jsTrunc
  rw [if_neg hq]
  constructor
  · nlinarith
  · nlinarith

/-- C3 (amended): for max > 0, wrapCoordinate always lands in the closed
interval [0, max]; it returns max exactly when the input is negative with
JS remainder zero (a negative exact multiple of max), so it lands in the
half-open interval [0, max) for every other input; it returns inputs
already inside [0, max) unchanged; and wrapping 7999 + 3 = 8002 with
max = 8000 yields 2. -/
theorem wrapCoordinate_range (v max : ℚ) (hmax : 0 < max) :
    (0 ≤ wrapCoordinate v max ∧ wrapCoordinate v max ≤ max) ∧
    (wrapCoordinate v max = max ↔ v < 0 ∧ jsMod v max = 0) ∧
    (0 ≤ v → v < max → wrapCoordinate v max = v) ∧
    wrapCoordinate (7999 + 3) 8000 = 2 := by
  have hscen : wrapCoordinate (7999 + 3) 8000 = 2 := by decide
  by_cases hneg : v < 0
  · have hb := jsMod_bounds_neg v max hmax hneg
    unfold wrapCoordinate
    rw [if_pos hneg]
    refine ⟨⟨by linarith [hb.1], by linarith [hb.2]⟩, ?_, ?_, hscen⟩
    · constructor
      · intro h
        exact ⟨hneg, by linarith⟩
      · intro h
        rw [h.2]
        ring
    · intro h0 _
      exact absurd h0 (not_le.mpr hneg)
  · push_neg at hneg
    by_cases hge : max ≤ v
    · have hb := jsMod_bounds_nonneg v max hmax hneg
      unfold wrapCoordinate
      rw [if_neg (not_lt.mpr hneg), if_pos hge]
      refine ⟨⟨hb.1, hb.2.le⟩, ?_, ?_, hscen⟩
      · constructor
        · intro h
          exact absurd h (ne_of_lt hb.2)
        · intro h
          exact absurd h.1 (not_lt.mpr hneg)
      · intro _ hlt
        exact absurd hge (not_le.mpr hlt)
    · push_neg at hge
      unfold wrapCoordinate
      rw [if_neg (not_lt.mpr hneg), if_neg (not_le.mpr hge)]
      refine ⟨⟨hneg, hge.le⟩, ?_, fun _ _ => rfl, hscen⟩
      constructor
      · intro h
        exact absurd h (ne_of_lt hge)
      · intro h
        exact absurd h.1 (not_lt.mpr hneg)

/-- C3 witness: the amended range theorem applied at v = 8002,
max = 8000. -/
theorem wrapCoordinate_range_witness :
    ((0 ≤ wrapCoordinate 8002 8000 ∧ wrapCoordinate 8002 8000 ≤ 8000) ∧
     (wrapCoordinate 8002 8000 = 8000 ↔
        (8002 : ℚ) < 0 ∧ jsMod 8002 8000 = 0) ∧
     ((0 : ℚ) ≤ 8002 → (8002 : ℚ) < 8000 → wrapCoordinate 8002 8000 = 8002) ∧
     wrapCoordinate (7999 + 3) 8000 = 2) ∧ (0 : ℚ) < 8000 :=
  ⟨wrapCoordinate_range 8002 8000 (by norm_num), by norm_num⟩

/-- C3 counterexample: a negative exact multiple of the world dimension
wraps to the dimension itself, not into the claimed half-open interval
[0, max): wrapCoordinate (-8000) 8000 = 8000. -/
theorem wrapCoordinate_cex :
    wrapCoordinate (-8000) 8000 = 8000 ∧
      ¬ wrapCoordinate (-8000) 8000 < 8000 := by
  constructor
  · decide
  · decide

/-- Concrete trig instance for witnesses: at heading 0 degrees Math.cos
returns exactly 1 and Math.sin exactly 0, which is the only heading the
concrete examples below use. -/
def axisTrig : Trig := ⟨fun _ => 1, fun _ => 0⟩

/-- The segment-shift loop of movePlayer (lines 641-647): for i counting
down from length - 1 to 1, segment i takes the position segment i - 1
still holds (the loop descends, so the source position is unmodified). -/
def shiftDown : List Vector2 → ℕ → List Vector2
  | s, 0 => s
  | s, i + 1 => shiftDown (s.set (i + 1) (s.getD i default)) i

/-- The boost drain block of movePlayer (lines 605-631).  The source
accumulates boostTime += tickRate and tests the sum; the inner guard
re-tests segments.length > 5, which the score update between the two
tests does not change, so both tests read the incoming segment list. -/
def boostStep (tickRate : ℚ) (p : Player) : Player :=
  if p.boosting then
    if 500 ≤ p.boostTime + tickRate then
      if 5 < p.segments.length then
        if 5 < p.segments.length then
          { p with boostTime := 0, score := max 0 (p.score - 1), segments := p.segments.dropLast }
        else
          { p with boostTime := 0, score := max 0 (p.score - 1), boosting := false }
      else
        { p with boostTime := 0, boosting := false }
    else
      { p with boostTime := p.boostTime + tickRate }
  else
    { p with boostTime := 0 }

/-- Player.updateHeadPosition (lines 86-91). -/
def updateHeadPosition (p : Player) : Player :=
  match p.segments.head? with
  | some h => { p with headPosition := h }
  | none => p

/-- movePlayer (lines 591-655) acting on the player record.  The head
position, heading and speed feeding the velocity computation are read
before the boost block in the source (the boost block can only pop the
tail, never touch segment 0, the heading or the speed), so they are read
off the incoming player here; the boost multiplier is likewise fixed
before the drain can clear the boosting flag. -/
def movePlayerP (trig : Trig) (tickRate width height : ℚ) (p : Player) : Player :=
  if p.alive = false ∨ p.segments.length = 0 then p
  else
    let speedMultiplier : ℚ := if p.boosting then 6 else 3
    let p1 := boostStep tickRate p
    let dx := trig.cosDeg p.angle * p.speed * speedMultiplier
    let dy := trig.sinDeg p.angle * p.speed * speedMultiplier
    let hd := p.segments.headI
    let newX := wrapCoordinate (hd.x + dx) width
    let newY := wrapCoordinate (hd.y + dy) height
    updateHeadPosition { p1 with
      segments := (shiftDown p1.segments (p1.segments.length - 1)).set 0 ⟨newX, newY⟩ }

/-- movePlayer lifted to the world state at a player key (the source
mutates the player object held by the map in place). -/
def movePlayer (trig : Trig) (s : SnakeGameState) (k : String) : SnakeGameState :=
  match mget s.players k with
  | none => s
  | some p =>
      let p1 := movePlayerP trig s.tickRate s.worldWidth s.worldHeight p
      { s with players := mset s.players k p1 }

lemma mget_mset_self {α : Type} (m : List (String × α)) (k : String) (v : α) :
    mget (mset m k v) k = some v := by
  induction m with
  | nil => simp [mget, mset]
  | cons e rest ih =>
      obtain ⟨k1, v1⟩ := e
      by_cases h : k1 = k
      · simp [mset, h, mget]
      · simp [mset, h, mget, ih]

lemma mget_mset_ne {α : Type} (m : List (String × α)) (k k2 : String) (v : α)
    (h : k ≠ k2) : mget (mset m k v) k2 = mget m k2 := by
  induction m with
  | nil => simp [mget, mset, h]
  | cons e rest ih =>
      obtain ⟨k1, v1⟩ := e
      by_cases h1 : k1 = k
      · simp [mset, h1, mget, h]
      · simp only [mset, h1, if_false, mget]
        by_cases h2 : k1 = k2 <;> simp [h2, ih]

lemma mset_eq_self {α : Type} (m : List (String × α)) (k : String) (v : α)
    (h : mget m k = some v) : mset m k v = m := by
  induction m with
  | nil => simp [mget] at h
  | cons e rest ih =>
      obtain ⟨k1, v1⟩ := e
      by_cases h1 : k1 = k
      · subst h1
        have hv : v1 = v := by simpa [mget] using h
        subst hv
        simp [mset]
      · simp only [mget, if_neg h1] at h
        simp [mset, h1, ih h]

lemma shiftDown_length (k : ℕ) : ∀ (s : List Vector2),
    (shiftDown s k).length = s.length := by
  induction k with
  | zero => intro s; rfl
  | succ i ih =>
      intro s
      rw [shiftDown, ih, List.length_set]

lemma shiftDown_getElem? (k : ℕ) : ∀ (s : List Vector2), k < s.length → ∀ (j : ℕ),
    (shiftDown s k)[j]? = if 1 ≤ j ∧ j ≤ k then s[j - 1]? else s[j]? := by
  induction k with
  | zero =>
      intro s _ j
      rw [shiftDown, if_neg (by omega)]
  | succ i ih =>
      intro s hk j
      rw [shiftDown]
      have hlen : i < (s.set (i + 1) (s.getD i default)).length := by
        rw [List.length_set]; omega
      rw [ih _ hlen j]
      by_cases h1 : 1 ≤ j ∧ j ≤ i
      · rw [if_pos h1, if_pos (by omega : 1 ≤ j ∧ j ≤ i + 1)]
        exact List.getElem?_set_ne (by omega)
      · by_cases h2 : j = i + 1
        · subst h2
          rw [if_neg h1, if_pos (by omega : 1 ≤ i + 1 ∧ i + 1 ≤ i + 1),
            List.getElem?_set_self (by omega)]
          have hi : i + 1 - 1 = i := by omega
          have hg : s[i]? = some s[i] := List.getElem?_eq_getElem (by omega)
          rw [hi, List.getD_eq_getElem?_getD, hg]
          rfl
        · rw [if_neg h1, if_neg (by omega)]
          exact List.getElem?_set_ne (by omega)

lemma updateHeadPosition_segments (p : Player) :
    (updateHeadPosition p).segments = p.segments := by
  unfold updateHeadPosition
  split <;> rfl

lemma updateHeadPosition_boosting (p : Player) :
    (updateHeadPosition p).boosting = p.boosting := by
  unfold updateHeadPosition
  split <;> rfl

lemma updateHeadPosition_score (p : Player) :
    (updateHeadPosition p).score = p.score := by
  unfold updateHeadPosition
  split <;> rfl

lemma boostStep_fields (t : ℚ) (p : Player) :
    (boostStep t p).angle = p.angle ∧ (boostStep t p).speed = p.speed ∧
    (boostStep t p).alive = p.alive ∧ (boostStep t p).id = p.id ∧
    ((boostStep t p).segments = p.segments ∨
      ((boostStep t p).segments = p.segments.dropLast ∧ 5 < p.segments.length)) := by
  unfold boostStep
  split
  · split
    · split
      · next h =>
          exact ⟨rfl, rfl, rfl, rfl, Or.inr ⟨rfl, h⟩⟩
      · exact ⟨rfl, rfl, rfl, rfl, Or.inl rfl⟩
    · exact ⟨rfl, rfl, rfl, rfl, Or.inl rfl⟩
  · exact ⟨rfl, rfl, rfl, rfl, Or.inl rfl⟩

lemma boostStep_length_pos (t : ℚ) (p : Player) (hne : p.segments ≠ []) :
    0 < (boostStep t p).segments.length := by
  rcases (boostStep_fields t p).2.2.2.2 with h | ⟨h, hlen⟩
  · rw [h]
    exact List.length_pos.mpr hne
  · rw [h, List.length_dropLast]
    omega

lemma movePlayerP_not_guarded (trig : Trig) (t w h : ℚ) (p : Player)
    (halive : p.alive = true) (hne : p.segments ≠ []) :
    ¬ (p.alive = false ∨ p.segments.length = 0) := by
  simp [halive, List.length_eq_zero, hne]

lemma movePlayerP_segments (trig : Trig) (t w h : ℚ) (p : Player)
    (halive : p.alive = true) (hne : p.segments ≠ []) :
    (movePlayerP trig t w h p).segments =
      (shiftDown (boostStep t p).segments ((boostStep t p).segments.length - 1)).set 0
        ⟨wrapCoordinate (p.segments.headI.x + trig.cosDeg p.angle * p.speed *
            (if p.boosting then 6 else 3)) w,
         wrapCoordinate (p.segments.headI.y + trig.sinDeg p.angle * p.speed *
            (if p.boosting then 6 else 3)) h⟩ := by
  rw [movePlayerP, if_neg (movePlayerP_not_guarded trig t w h p halive hne)]
  simp only [updateHeadPosition_segments]

lemma movePlayerP_flags (trig : Trig) (t w h : ℚ) (p : Player)
    (halive : p.alive = true) (hne : p.segments ≠ []) :
    (movePlayerP trig t w h p).boosting = (boostStep t p).boosting ∧
    (movePlayerP trig t w h p).score = (boostStep t p).score := by
  rw [movePlayerP, if_neg (movePlayerP_not_guarded trig t w h p halive hne)]
  simp [updateHeadPosition_boosting, updateHeadPosition_score]

lemma mget_movePlayer (trig : Trig) (s : SnakeGameState) (k : String) (p : Player)
    (hp : mget s.players k = some p) :
    mget (movePlayer trig s k).players k =
      some (movePlayerP trig s.tickRate s.worldWidth s.worldHeight p) := by
  rw [movePlayer, hp]
  exact mget_mset_self s.players k _

/-- C4: after one movement step (movePlayer), every trailing segment
i > 0 holds exactly the position segment i - 1 held immediately before
the step, and only the head (segment 0) holds a newly computed wrapped
position. -/
theorem movePlayer_segments_follow (trig : Trig) (s : SnakeGameState) (k : String)
    (p : Player) (hp : mget s.players k = some p) (halive : p.alive = true)
    (hne : p.segments ≠ []) :
    ∃ p1, mget (movePlayer trig s k).players k = some p1 ∧
      (∀ i, 0 < i → i < p1.segments.length → p1.segments[i]? = p.segments[i - 1]?) ∧
      p1.segments[0]? = some
        ⟨wrapCoordinate (p.segments.headI.x + trig.cosDeg p.angle * p.speed *
            (if p.boosting then 6 else 3)) s.worldWidth,
         wrapCoordinate (p.segments.headI.y + trig.sinDeg p.angle * p.speed *
            (if p.boosting then 6 else 3)) s.worldHeight⟩ := by
  refine ⟨movePlayerP trig s.tickRate s.worldWidth s.worldHeight p,
    mget_movePlayer trig s k p hp, ?_, ?_⟩
  · intro i hi hilt
    rw [movePlayerP_segments trig _ _ _ p halive hne] at hilt ⊢
    have hq := boostStep_length_pos s.tickRate p hne
    have hlen : (shiftDown (boostStep s.tickRate p).segments
        ((boostStep s.tickRate p).segments.length - 1)).length =
        (boostStep s.tickRate p).segments.length := shiftDown_length _ _
    rw [List.length_set, hlen] at hilt
    rw [List.getElem?_set_ne (by omega : (0 : ℕ) ≠ i),
      shiftDown_getElem? _ _ (by omega) i, if_pos (by omega)]
    rcases (boostStep_fields s.tickRate p).2.2.2.2 with h | ⟨h, hgt⟩
    · rw [h]
    · rw [h] at hilt ⊢
      rw [List.getElem?_dropLast, if_pos (by
        rw [List.length_dropLast] at hilt
        omega)]
  · rw [movePlayerP_segments trig _ _ _ p halive hne]
    refine List.getElem?_set_self ?_
    rw [shiftDown_length]
    exact boostStep_length_pos s.tickRate p hne

/-- C5: a boosting player whose accumulator crosses the 500 ms drain
threshold during a movement step keeps its 5-segment floor: at the floor
the step forces boosting off, removes no segment and leaves the score
unchanged; above the floor it removes exactly one tail segment and
decrements the score by one, never below zero. -/
theorem movePlayer_boost_drain (trig : Trig) (s : SnakeGameState) (k : String)
    (p : Player) (hp : mget s.players k = some p) (halive : p.alive = true)
    (hboost : p.boosting = true) (hdrain : 500 ≤ p.boostTime + s.tickRate)
    (hne : p.segments ≠ []) :
    ∃ p1, mget (movePlayer trig s k).players k = some p1 ∧
      (p.segments.length = 5 →
        p1.boosting = false ∧ p1.segments.length = 5 ∧ p1.score = p.score) ∧
      (5 < p.segments.length →
        p1.segments.length = p.segments.length - 1 ∧
        p1.score = max 0 (p.score - 1) ∧ 0 ≤ p1.score) := by
  refine ⟨movePlayerP trig s.tickRate s.worldWidth s.worldHeight p,
    mget_movePlayer trig s k p hp, ?_, ?_⟩
  · intro hfloor
    have hflags := movePlayerP_flags trig s.tickRate s.worldWidth s.worldHeight p halive hne
    have hlen : (movePlayerP trig s.tickRate s.worldWidth s.worldHeight p).segments.length =
        (boostStep s.tickRate p).segments.length := by
      rw [movePlayerP_segments trig _ _ _ p halive hne, List.length_set, shiftDown_length]
    have hb : boostStep s.tickRate p =
        { p with boostTime := 0, boosting := false } := by
      rw [boostStep, if_pos hboost, if_pos hdrain, if_neg (by omega : ¬ 5 < p.segments.length)]
    rw [hflags.1, hflags.2, hlen, hb]
    exact ⟨rfl, hfloor, rfl⟩
  · intro hgt
    have hflags := movePlayerP_flags trig s.tickRate s.worldWidth s.worldHeight p halive hne
    have hlen : (movePlayerP trig s.tickRate s.worldWidth s.worldHeight p).segments.length =
        (boostStep s.tickRate p).segments.length := by
      rw [movePlayerP_segments trig _ _ _ p halive hne, List.length_set, shiftDown_length]
    have hb : boostStep s.tickRate p =
        { p with boostTime := 0, score := max 0 (p.score - 1), segments := p.segments.dropLast } := by
      rw [boostStep, if_pos hboost, if_pos hdrain, if_pos hgt, if_pos hgt]
    rw [hflags.2, hlen, hb]
    exact ⟨by rw [List.length_dropLast], rfl, le_max_left 0 _⟩

/-- Concrete world for the C4 witness: one alive player with five
distinct segment positions, heading 0 degrees. -/
def playerW4 : Player :=
  ⟨ "a", 0, 0, 5, true,
    [⟨100, 0⟩, ⟨80, 0⟩, ⟨60, 0⟩, ⟨40, 0⟩, ⟨20, 0⟩], false, 0, ⟨100, 0⟩⟩

def stateW4 : SnakeGameState := ⟨[("a", playerW4)], [], 8000, 8000, 0, 16, 0⟩

/-- C4 witness: the follow-the-leader theorem applied to the concrete
one-player world. -/
theorem movePlayer_segments_follow_witness :
    ∃ p1, mget (movePlayer axisTrig stateW4 "a").players "a" = some p1 ∧
      (∀ i, 0 < i → i < p1.segments.length →
        p1.segments[i]? = playerW4.segments[i - 1]?) ∧
      p1.segments[0]? = some
        ⟨wrapCoordinate (playerW4.segments.headI.x +
            axisTrig.cosDeg playerW4.angle * playerW4.speed *
            (if playerW4.boosting then 6 else 3)) stateW4.worldWidth,
         wrapCoordinate (playerW4.segments.headI.y +
            axisTrig.sinDeg playerW4.angle * playerW4.speed *
            (if playerW4.boosting then 6 else 3)) stateW4.worldHeight⟩ :=
  movePlayer_segments_follow axisTrig stateW4 "a" playerW4 (by decide) (by decide)
    (by decide)

/-- Concrete world for the C5 witness: one alive boosting player at the
5-segment floor whose accumulator crosses 500 ms this tick. -/
def playerW5 : Player :=
  ⟨ "a", 7, 0, 5, true,
    [⟨100, 100⟩, ⟨80, 100⟩, ⟨60, 100⟩, ⟨40, 100⟩, ⟨20, 100⟩], true, 496, ⟨100, 100⟩⟩

def stateW5 : SnakeGameState := ⟨[("a", playerW5)], [], 8000, 8000, 0, 16, 0⟩

/-- C5 witness: the boost drain theorem applied to the concrete world at
the floor. -/
theorem movePlayer_boost_drain_witness :
    ∃ p1, mget (movePlayer axisTrig stateW5 "a").players "a" = some p1 ∧
      (playerW5.segments.length = 5 →
        p1.boosting = false ∧ p1.segments.length = 5 ∧ p1.score = playerW5.score) ∧
      (5 < playerW5.segments.length →
        p1.segments.length = playerW5.segments.length - 1 ∧
        p1.score = max 0 (playerW5.score - 1) ∧ 0 ≤ p1.score) :=
  movePlayer_boost_drain axisTrig stateW5 "a" playerW5 (by decide) (by decide)
    (by decide) (by decide) (by decide)

/-- Player.addSegment (lines 76-83): append a copy of the last segment.
The source dereferences segments[length - 1] and would throw on an empty
chain; every call site sits behind the head dereference of the eatFood
handler, so the empty case is unreachable and modelled as the identity. -/
def addSegment (p : Player) : Player :=
  match p.segments.getLast? with
  | none => p
  | some last => { p with segments := p.segments ++ [last] }

/-- The grow loop of the eatFood handler (lines 482-485). -/
def addSegments : ℕ → Player → Player
  | 0, p => p
  | n + 1, p => addSegments n (addSegment p)

/-- spawnFood (lines 763-779) with the random draw supplied as the food
to insert: stores the food and broadcasts foodSpawned. -/
def spawnFoodAt (s : SnakeGameState) (f : Food) : SnakeGameState × Event :=
  ({ s with foods := mset s.foods f.id f },
   Event.foodSpawned f.id f.position f.value)

/-- The eatFood message handler (lines 446-502); newFood is the random
draw the nested spawnFood call will insert.  The squared-distance guard
is the square of the source comparison sqrt(dx*dx + dy*dy) <= 250,
equivalent because both sides are nonnegative.  Returns none exactly
when the source would throw (head dereference on an empty chain);
otherwise the updated state and the broadcasts in order. -/
def eatFood (s : SnakeGameState) (sessionId foodId : String) (newFood : Food) :
    Option (SnakeGameState × List Event) :=
  match mget s.players sessionId with
  | none => some (s, [])
  | some player =>
    if player.alive = false then some (s, [])
    else
      match mget s.foods foodId with
      | none => some (s, [])
      | some food =>
        match player.segments.head? with
        | none => none
        | some head =>
          if (head.x - food.position.x) * (head.x - food.position.x) +
              (head.y - food.position.y) * (head.y - food.position.y) ≤
              250 * 250 then
            let p1 := { player with score := player.score + food.value }
            let p2 := addSegments (if 1 < food.value then 3 else 1) p1
            let s1 := { s with players := mset s.players sessionId p2 }
            let s2 := { s1 with foods := mdelete s1.foods foodId }
            let s3e := spawnFoodAt s2 newFood
            some (s3e.1,
              [Event.foodConsumed foodId player.id food.value, s3e.2])
          else some (s, [])

/-- respawnPlayer (lines 709-724) with the random spawn point supplied:
alive, score and the segment chain are reset; the boosting flag and the
boost accumulator are not touched by the source. -/
def respawnPlayer (s : SnakeGameState) (k : String) (spawn : Vector2) :
    SnakeGameState :=
  match mget s.players k with
  | none => s
  | some p =>
      let segs := (List.range 5).map
        (fun (i : ℕ) => Vector2.mk (spawn.x - (i : ℚ) * 20) spawn.y)
      let p1 : Player := { p with alive := true, score := 0, segments := segs }
      { s with players := mset s.players k p1 }

lemma mget_mdelete_self {α : Type} (m : List (String × α)) (k : String) :
    mget (mdelete m k) k = none := by
  induction m with
  | nil => rfl
  | cons e rest ih =>
      obtain ⟨k1, v1⟩ := e
      by_cases h : k1 = k
      · simp [mdelete, h, ih]
      · simp [mdelete, h, mget, ih]

lemma mget_mdelete_ne {α : Type} (m : List (String × α)) (k k2 : String)
    (h : k ≠ k2) : mget (mdelete m k) k2 = mget m k2 := by
  induction m with
  | nil => rfl
  | cons e rest ih =>
      obtain ⟨k1, v1⟩ := e
      by_cases h1 : k1 = k
      · subst h1
        simp [mdelete, mget, h, ih]
      · simp only [mdelete, if_neg h1, mget]
        by_cases h2 : k1 = k2 <;> simp [h2, ih]

lemma mget_eq_none_of_not_mem {α : Type} (m : List (String × α)) (k : String)
    (h : k ∉ m.map Prod.fst) : mget m k = none := by
  induction m with
  | nil => rfl
  | cons e rest ih =>
      obtain ⟨k1, v1⟩ := e
      simp only [List.map_cons, List.mem_cons, not_or] at h
      have hne : k1 ≠ k := fun he => h.1 he.symm
      simp only [mget, if_neg hne]
      exact ih h.2

lemma mdelete_eq_self_of_none {α : Type} (m : List (String × α)) (k : String)
    (h : mget m k = none) : mdelete m k = m := by
  induction m with
  | nil => rfl
  | cons e rest ih =>
      obtain ⟨k1, v1⟩ := e
      by_cases h1 : k1 = k
      · simp [mget, h1] at h
      · simp only [mget, if_neg h1] at h
        simp [mdelete, h1, ih h]

lemma mdelete_length_nodup {α : Type} (m : List (String × α)) (k : String)
    (v : α) (hnd : (m.map Prod.fst).Nodup) (h : mget m k = some v) :
    (mdelete m k).length + 1 = m.length := by
  induction m with
  | nil => simp [mget] at h
  | cons e rest ih =>
      obtain ⟨k1, v1⟩ := e
      simp only [List.map_cons, List.nodup_cons] at hnd
      by_cases h1 : k1 = k
      · subst h1
        have hrest : mget rest k1 = none :=
          mget_eq_none_of_not_mem rest k1 hnd.1
        simp [mdelete, mdelete_eq_self_of_none rest k1 hrest]
      · simp only [mget, if_neg h1] at h
        simp [mdelete, h1, ih hnd.2 h]

lemma mset_length_of_none {α : Type} (m : List (String × α)) (k : String)
    (v : α) (h : mget m k = none) : (mset m k v).length = m.length + 1 := by
  induction m with
  | nil => rfl
  | cons e rest ih =>
      obtain ⟨k1, v1⟩ := e
      by_cases h1 : k1 = k
      · simp [mget, h1] at h
      · simp only [mget, if_neg h1] at h
        simp [mset, h1, ih h]

lemma addSegment_spec (p : Player) (h : p.segments ≠ []) :
    (addSegment p).segments.length = p.segments.length + 1 ∧
    (addSegment p).segments ≠ [] ∧
    (addSegment p).score = p.score ∧ (addSegment p).id = p.id := by
  cases hx : p.segments.getLast? with
  | none => exact absurd (List.getLast?_eq_none_iff.mp hx) h
  | some a =>
      unfold addSegment
      rw [hx]
      refine ⟨by simp, by simp, rfl, rfl⟩

lemma addSegments_spec (n : ℕ) : ∀ (p : Player), p.segments ≠ [] →
    (addSegments n p).segments.length = p.segments.length + n ∧
    (addSegments n p).score = p.score ∧ (addSegments n p).id = p.id := by
  induction n with
  | zero => intro p _; exact ⟨rfl, rfl, rfl⟩
  | succ i ih =>
      intro p hne
      have ha := addSegment_spec p hne
      have hi := ih (addSegment p) ha.2.1
      refine ⟨?_, ?_, ?_⟩
      · rw [addSegments, hi.1, ha.1]
        omega
      · rw [addSegments, hi.2.1, ha.2.2.1]
      · rw [addSegments, hi.2.2, ha.2.2.2]

/-- The grown player the eatFood success path stores back: score raised
by the food value and the value-dependent number of appended segments. -/
def grownPlayer (p : Player) (food : Food) : Player :=
  addSegments (if 1 < food.value then 3 else 1) { p with score := p.score + food.value }

/-- The world state produced by the eatFood success path. -/
def eatFoodState (s : SnakeGameState) (sid fid : String) (p : Player) (food : Food) (nf : Food) : SnakeGameState :=
  { s with players := mset s.players sid (grownPlayer p food), foods := mset (mdelete s.foods fid) nf.id nf }

/-- C2: a valid eatFood claim (alive player, existing food, head within
the accepted range) adds the food value to the score, grows the chain by
3 segments for special food (value > 1) and by 1 for common food — never
shrinking it — broadcasts foodConsumed, deletes exactly the claimed food
and inserts exactly one fresh replacement food. -/
theorem eatFood_success (s : SnakeGameState) (sid fid : String) (nf : Food)
    (p : Player) (food : Food) (hd : Vector2)
    (hp : mget s.players sid = some p) (halive : p.alive = true)
    (hhd : p.segments.head? = some hd)
    (hf : mget s.foods fid = some food)
    (hdist : (hd.x - food.position.x) * (hd.x - food.position.x) +
      (hd.y - food.position.y) * (hd.y - food.position.y) ≤ 250 * 250)
    (hnf1 : nf.id ≠ fid) (hnf2 : mget s.foods nf.id = none)
    (hnd : (s.foods.map Prod.fst).Nodup) :
    ∃ s1 p1, eatFood s sid fid nf =
        some (s1, [Event.foodConsumed fid p.id food.value,
          Event.foodSpawned nf.id nf.position nf.value]) ∧
      mget s1.players sid = some p1 ∧
      p1.score = p.score + food.value ∧
      p1.segments.length = p.segments.length + (if 1 < food.value then 3 else 1) ∧
      p.segments.length < p1.segments.length ∧
      mget s1.foods fid = none ∧
      mget s1.foods nf.id = some nf ∧
      s1.foods.length = s.foods.length := by
  have hne : p.segments ≠ [] := by
    intro hc
    rw [hc] at hhd
    simp at hhd
  have halivene : ¬ p.alive = false := by simp [halive]
  have heat : eatFood s sid fid nf =
      some (eatFoodState s sid fid p food nf,
        [Event.foodConsumed fid p.id food.value,
          Event.foodSpawned nf.id nf.position nf.value]) := by
    rw [eatFood, hp]
    dsimp only
    rw [if_neg halivene, hf]
    dsimp only
    rw [hhd]
    dsimp only
    rw [if_pos hdist]
    rfl
  have hseg : ({ p with score := p.score + food.value } : Player).segments ≠ [] := hne
  have hadd := addSegments_spec (if 1 < food.value then 3 else 1) _ hseg
  refine ⟨eatFoodState s sid fid p food nf, grownPlayer p food,
    heat, ?_, ?_, ?_, ?_, ?_, ?_, ?_⟩
  · exact mget_mset_self s.players sid _
  · exact hadd.2.1
  · exact hadd.1
  · rw [show (grownPlayer p food).segments.length =
      p.segments.length + (if 1 < food.value then 3 else 1) from hadd.1]
    split <;> omega
  · rw [show (eatFoodState s sid fid p food nf).foods =
      mset (mdelete s.foods fid) nf.id nf from rfl,
      mget_mset_ne _ _ _ _ hnf1]
    exact mget_mdelete_self s.foods fid
  · exact mget_mset_self _ nf.id nf
  · have h1 : mget (mdelete s.foods fid) nf.id = none := by
      rw [mget_mdelete_ne _ _ _ (fun he => hnf1 he.symm)]
      exact hnf2
    have h2 := mset_length_of_none (mdelete s.foods fid) nf.id nf h1
    have h3 := mdelete_length_nodup s.foods fid food hnd hf
    calc (eatFoodState s sid fid p food nf).foods.length
        = (mset (mdelete s.foods fid) nf.id nf).length := rfl
      _ = (mdelete s.foods fid).length + 1 := h2
      _ = s.foods.length := h3

/-- Concrete world for the C2 witness: an alive 5-segment player at the
origin and one special food 10 units away. -/
def playerW2 : Player :=
  ⟨ "a", 0, 0, 5, true,
    [⟨0, 0⟩, ⟨20, 0⟩, ⟨40, 0⟩, ⟨60, 0⟩, ⟨80, 0⟩], false, 0, ⟨0, 0⟩⟩

def foodW2 : Food := ⟨ "f", ⟨10, 0⟩, 5⟩

def newFoodW2 : Food := ⟨ "g", ⟨7, 7⟩, 1⟩

def stateW2 : SnakeGameState :=
  ⟨[("a", playerW2)], [("f", foodW2)], 8000, 8000, 1000, 16, 0⟩

/-- C2 witness: the eatFood success theorem applied to the concrete
world. -/
theorem eatFood_success_witness :
    ∃ s1 p1, eatFood stateW2 "a" "f" newFoodW2 =
        some (s1, [Event.foodConsumed "f" playerW2.id foodW2.value,
          Event.foodSpawned newFoodW2.id newFoodW2.position newFoodW2.value]) ∧
      mget s1.players "a" = some p1 ∧
      p1.score = playerW2.score + foodW2.value ∧
      p1.segments.length = playerW2.segments.length +
        (if 1 < foodW2.value then 3 else 1) ∧
      playerW2.segments.length < p1.segments.length ∧
      mget s1.foods "f" = none ∧
      mget s1.foods newFoodW2.id = some newFoodW2 ∧
      s1.foods.length = stateW2.foods.length :=
  eatFood_success stateW2 "a" "f" newFoodW2 playerW2 foodW2 ⟨0, 0⟩ (by decide)
    (by decide) (by decide) (by decide) (by decide) (by decide) (by decide)
    (by decide)

/-- C6: a failing eatFood claim — unknown food id (including one already
deleted), unknown or dead player, or head farther than the accepted
range — leaves the entire world unchanged and broadcasts nothing. -/
theorem eatFood_failure_noop (s : SnakeGameState) (sid fid : String) (nf : Food)
    (h : mget s.foods fid = none ∨
      mget s.players sid = none ∨
      (∃ p, mget s.players sid = some p ∧ p.alive = false) ∨
      (∃ p food hd, mget s.players sid = some p ∧ p.alive = true ∧
        mget s.foods fid = some food ∧ p.segments.head? = some hd ∧
        250 * 250 < (hd.x - food.position.x) * (hd.x - food.position.x) +
          (hd.y - food.position.y) * (hd.y - food.position.y))) :
    eatFood s sid fid nf = some (s, []) := by
  rcases h with hf | hp | ⟨p, hp, hdead⟩ | ⟨p, food, hd, hp, halive, hf, hhd, hfar⟩
  · cases hp : mget s.players sid with
    | none => rw [eatFood, hp]
    | some p =>
        rw [eatFood, hp]
        dsimp only
        by_cases ha : p.alive = false
        · rw [if_pos ha]
        · rw [if_neg ha, hf]
  · rw [eatFood, hp]
  · rw [eatFood, hp]
    dsimp only
    rw [if_pos hdead]
  · rw [eatFood, hp]
    dsimp only
    rw [if_neg (by simp [halive] : ¬ p.alive = false), hf]
    dsimp only
    rw [hhd]
    dsimp only
    rw [if_neg (not_le.mpr hfar)]

/-- Concrete world for the C6 witness: a dead player claiming an
existing food. -/
def playerW6 : Player :=
  ⟨ "a", 4, 0, 5, false,
    [⟨0, 0⟩, ⟨20, 0⟩, ⟨40, 0⟩, ⟨60, 0⟩, ⟨80, 0⟩], false, 0, ⟨0, 0⟩⟩

def stateW6 : SnakeGameState :=
  ⟨[("a", playerW6)], [("f", ⟨ "f", ⟨10, 0⟩, 1⟩)], 8000, 8000, 1000, 16, 0⟩

/-- C6 witness: the failure no-op theorem applied to the dead-player
world. -/
theorem eatFood_failure_noop_witness :
    eatFood stateW6 "a" "f" ⟨ "g", ⟨7, 7⟩, 1⟩ = some (stateW6, []) :=
  eatFood_failure_noop stateW6 "a" "f" ⟨ "g", ⟨7, 7⟩, 1⟩
    (Or.inr (Or.inr (Or.inl ⟨playerW6, by decide, by decide⟩)))

/-- C7 (amended): respawn of a dead registered player sets alive, resets
the score to 0 and installs a fresh 5-segment chain at the supplied spawn
point, but leaves the boosting flag and the boost accumulator exactly as
they were (the source never clears them). -/
theorem respawn_resets_dead (s : SnakeGameState) (k : String) (spawn : Vector2)
    (p : Player) (hp : mget s.players k = some p) (hdead : p.alive = false) :
    ∃ p1, mget (respawnPlayer s k spawn).players k = some p1 ∧
      p1.alive = true ∧ p1.score = 0 ∧
      p1.segments = (List.range 5).map
        (fun (i : ℕ) => Vector2.mk (spawn.x - (i : ℚ) * 20) spawn.y) ∧
      p1.segments.length = 5 ∧
      p1.boosting = p.boosting ∧ p1.boostTime = p.boostTime := by
  refine ⟨{ p with alive := true, score := 0, segments := (List.range 5).map (fun (i : ℕ) => Vector2.mk (spawn.x - (i : ℚ) * 20) spawn.y) }, ?_, rfl, rfl, rfl, by simp, rfl, rfl⟩
  rw [respawnPlayer, hp]
  exact mget_mset_self s.players k _

/-- Concrete world for the C7 counterexample and witness: a dead player
that was boosting when it died, accumulator at 100 ms. -/
def playerW7 : Player :=
  ⟨ "a", 9, 0, 5, false,
    [⟨0, 0⟩, ⟨20, 0⟩, ⟨40, 0⟩, ⟨60, 0⟩, ⟨80, 0⟩], true, 100, ⟨0, 0⟩⟩

def stateW7 : SnakeGameState :=
  ⟨[("a", playerW7)], [], 8000, 8000, 1000, 16, 0⟩

/-- C7 counterexample: respawning the dead boosting player leaves
boosting = true and boostTime = 100, so the claimed clearing of the boost
state does not happen. -/
theorem respawn_keeps_boost_cex :
    (mget (respawnPlayer stateW7 "a" ⟨0, 0⟩).players "a").map
      (fun q => (q.boosting, q.boostTime)) = some (true, 100) := by
  decide

/-- C7 witness: the amended respawn theorem applied to the dead boosting
player. -/
theorem respawn_resets_dead_witness :
    ∃ p1, mget (respawnPlayer stateW7 "a" ⟨0, 0⟩).players "a" = some p1 ∧
      p1.alive = true ∧ p1.score = 0 ∧
      p1.segments = (List.range 5).map
        (fun (i : ℕ) => Vector2.mk ((0 : ℚ) - (i : ℚ) * 20) 0) ∧
      p1.segments.length = 5 ∧
      p1.boosting = playerW7.boosting ∧ p1.boostTime = playerW7.boostTime :=
  respawn_resets_dead stateW7 "a" ⟨0, 0⟩ playerW7 (by decide) (by decide)

/-- C10: the respawn handler has no dead-player precondition: any
registered player — alive or dead — is reset to alive with score 0 and a
fresh 5-segment chain at the supplied spawn point. -/
theorem respawn_no_dead_precondition (s : SnakeGameState) (k : String)
    (spawn : Vector2) (p : Player) (hp : mget s.players k = some p) :
    ∃ p1, mget (respawnPlayer s k spawn).players k = some p1 ∧
      p1.alive = true ∧ p1.score = 0 ∧
      p1.segments = (List.range 5).map
        (fun (i : ℕ) => Vector2.mk (spawn.x - (i : ℚ) * 20) spawn.y) ∧
      p1.segments.length = 5 := by
  refine ⟨{ p with alive := true, score := 0, segments := (List.range 5).map (fun (i : ℕ) => Vector2.mk (spawn.x - (i : ℚ) * 20) spawn.y) }, ?_, rfl, rfl, rfl, by simp⟩
  rw [respawnPlayer, hp]
  exact mget_mset_self s.players k _

/-- Concrete world for the C10 witness: an alive player with score 42
that sends respawn and loses everything. -/
def playerW10 : Player :=
  ⟨ "a", 42, 0, 5, true,
    [⟨0, 0⟩, ⟨20, 0⟩, ⟨40, 0⟩, ⟨60, 0⟩, ⟨80, 0⟩], false, 0, ⟨0, 0⟩⟩

def stateW10 : SnakeGameState :=
  ⟨[("a", playerW10)], [], 8000, 8000, 1000, 16, 0⟩

/-- C10 witness: the no-precondition respawn theorem applied to the
alive scoring player. -/
theorem respawn_no_dead_precondition_witness :
    ∃ p1, mget (respawnPlayer stateW10 "a" ⟨50, 60⟩).players "a" = some p1 ∧
      p1.alive = true ∧ p1.score = 0 ∧
      p1.segments = (List.range 5).map
        (fun (i : ℕ) => Vector2.mk ((50 : ℚ) - (i : ℚ) * 20) 60) ∧
      p1.segments.length = 5 :=
  respawn_no_dead_precondition stateW10 "a" ⟨50, 60⟩ playerW10 (by decide)

/-- Squared distance between two points.  The source compares
sqrt(dx*dx + dy*dy) against a radius; the comparisons below use the
squared form, which is equivalent since both sides are nonnegative. -/
def dist2 (a b : Vector2) : ℚ :=
  (a.x - b.x) * (a.x - b.x) + (a.y - b.y) * (a.y - b.y)

/-- killPlayer (lines 702-707): mark the player dead.  The playerDied
broadcast is an output only and is not tracked on the tick path. -/
def killPlayer (s : SnakeGameState) (k : String) : SnakeGameState :=
  match mget s.players k with
  | none => s
  | some p => { s with players := mset s.players k { p with alive := false } }

/-- spawnFoodFromDeadPlayer (lines 726-754): min(floor(len / 3), 20)
food items, each at a randomly sampled segment position with random
jitter and a fresh random id; the draws come from the rng dead stream at
the current call counter, and Math.floor(Math.random() * len) is the
supplied raw index reduced modulo the chain length. -/
def spawnFoodFromDeadPlayer (rng : Rng) (sim : Sim) (p : Player) : Sim :=
  let n := min (p.segments.length / 3) 20
  let foods := (List.range n).map (fun i =>
    let d := rng.deadDraw sim.deadN i
    let seg := p.segments.getD (d.1 % p.segments.length) default
    Food.mk d.2.2.2 ⟨seg.x + d.2.1, seg.y + d.2.2.1⟩ 1)
  ⟨{ sim.st with foods := foods.foldl (fun m f => mset m f.id f) sim.st.foods },
    sim.spawnN, sim.deadN + 1⟩

/-- One otherPlayer step of the forEach in checkPlayerCollisions (lines
664-685): a hit of the checked head on any non-head segment of a living
other snake kills the checked player, credits the other with
floor(score / 2) and scatters corpse food.  The source return statement
only leaves the forEach callback, so the iteration continues with the
next other player: an already-dead player can be killed again and
scatter food again. -/
def collideOther (rng : Rng) (p : Player) (head : Vector2) (k : String)
    (sim : Sim) (ok : String) : Sim :=
  match mget sim.st.players ok with
  | none => sim
  | some other =>
    if other.id = p.id ∨ other.alive = false then sim
    else if ∃ seg ∈ other.segments.drop 1, dist2 head seg < 18 * 18 then
      let st1 := killPlayer sim.st k
      let other2 : Player := { other with score := other.score + Int.fdiv p.score 2 }
      let st2 : SnakeGameState := { st1 with players := mset st1.players ok other2 }
      spawnFoodFromDeadPlayer rng ⟨st2, sim.spawnN, sim.deadN⟩ p
    else sim

/-- checkPlayerCollisions (lines 657-700) at a player key: the forEach
over every player in insertion order, then the self-collision scan over
segments from index 5 on.  Returns none exactly when the source would
throw: the head getter dereferences segments[0] of an empty chain. -/
def checkPlayerCollisions (rng : Rng) (k : String) (sim : Sim) : Option Sim :=
  match mget sim.st.players k with
  | none => some sim
  | some p =>
    if p.alive = false then some sim
    else
      match p.segments.head? with
      | none => none
      | some head =>
        let sim1 := (sim.st.players.map Prod.fst).foldl (collideOther rng p head k) sim
        if ∃ seg ∈ p.segments.drop 5, dist2 head seg < 8 * 8 then
          some (spawnFoodFromDeadPlayer rng ⟨killPlayer sim1.st k, sim1.spawnN, sim1.deadN⟩ p)
        else some sim1

/-- One iteration of the gameLoop forEach (lines 578-583): skip dead
players, otherwise move then immediately collision-check this player. -/
def tickPlayer (rng : Rng) (trig : Trig) (sim : Sim) (k : String) : Option Sim :=
  match mget sim.st.players k with
  | none => some sim
  | some p =>
    if p.alive = false then some sim
    else checkPlayerCollisions rng k ⟨movePlayer trig sim.st k, sim.spawnN, sim.deadN⟩

/-- Sequencing of fallible per-player steps over the key list. -/
def runSeq (f : Sim → String → Option Sim) : Sim → List String → Option Sim
  | sim, [] => some sim
  | sim, k :: rest =>
      match f sim k with
      | none => none
      | some sim1 => runSeq f sim1 rest

/-- spawnFood on the tick path (lines 763-779): insert the next food of
the rng stream. -/
def spawnFoodR (rng : Rng) (sim : Sim) : Sim :=
  let f := rng.nextFood sim.spawnN
  ⟨{ sim.st with foods := mset sim.st.foods f.id f }, sim.spawnN + 1, sim.deadN⟩

/-- The food replenishment step of gameLoop (lines 586-588). -/
def replenish (rng : Rng) (sim : Sim) : Sim :=
  if sim.st.foods.length < sim.st.maxFoods then spawnFoodR rng sim else sim

/-- gameLoop (lines 576-589): for each player in insertion order, if it
is alive, move it and immediately run its collision checks — the next
player moves only afterwards — then replenish food once. -/
def gameLoop (rng : Rng) (trig : Trig) (sim : Sim) : Option Sim :=
  match runSeq (tickPlayer rng trig) sim (sim.st.players.map Prod.fst) with
  | none => none
  | some sim1 => some (replenish rng sim1)

/-- Modelled from the spec (section 5 ordering guarantee): the reference
two-phase tick — movement fully applied for every alive player first,
then every collision check against that same post-movement snapshot,
then food replenishment. -/
def specTwoPhaseTick (rng : Rng) (trig : Trig) (sim : Sim) : Option Sim :=
  let keys := sim.st.players.map Prod.fst
  let moved := keys.foldl (fun st k => movePlayer trig st k) sim.st
  match runSeq (fun sm k => checkPlayerCollisions rng k sm) ⟨moved, sim.spawnN, sim.deadN⟩ keys with
  | none => none
  | some sim1 => some (replenish rng sim1)

/-- Fixed randomness for the concrete tick examples: every spawnFood
draw yields food nf at the origin and every corpse draw samples segment
index 0 with no jitter and id df. -/
def rngFix : Rng := ⟨fun _ => ⟨ "nf", ⟨0, 0⟩, 1⟩, fun _ _ => (0, 0, 0, "df")⟩

/-- First player of the C1 counterexample: heading 0, speed 5, not
boosting, head at (5, 0) with its tail far away at x = 5, y ≥ 300. -/
def playerA1 : Player :=
  ⟨ "a", 0, 0, 5, true,
    [⟨5, 0⟩, ⟨5, 300⟩, ⟨5, 320⟩, ⟨5, 340⟩, ⟨5, 360⟩], false, 0, ⟨5, 0⟩⟩

/-- Second player of the C1 counterexample: heading 0, speed 5, segments
trailing 20 apart along the x axis with the tail at (20, 0). -/
def playerB1 : Player :=
  ⟨ "b", 0, 0, 5, true,
    [⟨100, 0⟩, ⟨80, 0⟩, ⟨60, 0⟩, ⟨40, 0⟩, ⟨20, 0⟩], false, 0, ⟨100, 0⟩⟩

/-- C1 counterexample world: player a moves its head onto the spot where
the tail segment of player b rests before b moves this tick; after b
moves, that spot is vacated. -/
def simC1 : Sim := ⟨⟨[("a", playerA1), ("b", playerB1)], [], 8000, 8000, 0, 16, 0⟩, 0, 0⟩

/-- C1 counterexample: the implemented tick runs the collision check of
player a against the not-yet-moved segments of player b and kills a,
while the two-phase reference tick moves b first and a survives — the
two ticks produce different states on this world. -/
theorem gameLoop_ne_two_phase_cex :
    gameLoop rngFix axisTrig simC1 ≠ specTwoPhaseTick rngFix axisTrig simC1 := by
  decide

/-- C8 world: an alive registered player with an empty segment chain. -/
def simC8 : Sim :=
  ⟨⟨[("z", ⟨ "z", 0, 0, 5, true, [], false, 0, ⟨0, 0⟩⟩)], [], 8000, 8000, 0, 16, 0⟩, 0, 0⟩

/-- C8: on a world holding an alive player with zero segments the tick
fails — checkPlayerCollisions dereferences segments[0] of the empty
chain (the head getter), which the total embedding reports as none — so
the room crashes instead of force-killing only that player. -/
theorem gameLoop_zero_segments_crash :
    gameLoop rngFix axisTrig simC8 = none := by
  decide

/-- C9 world: an empty room whose tick succeeds without touching
anything. -/
def simC9 : Sim := ⟨⟨[], [], 8000, 8000, 0, 16, 0⟩, 0, 0⟩

/-- C9 counterexample: one tick of the empty world succeeds and its
timestamp is not strictly greater afterwards — it is unchanged. -/
theorem gameLoop_timestamp_cex :
    (gameLoop rngFix axisTrig simC9).map
      (fun x => decide (simC9.st.timestamp < x.st.timestamp)) = some false := by
  decide

lemma movePlayer_timestamp (trig : Trig) (s : SnakeGameState) (k : String) :
    (movePlayer trig s k).timestamp = s.timestamp := by
  unfold movePlayer
  split <;> rfl

lemma killPlayer_timestamp (s : SnakeGameState) (k : String) :
    (killPlayer s k).timestamp = s.timestamp := by
  unfold killPlayer
  split <;> rfl

lemma spawnFoodFromDeadPlayer_timestamp (rng : Rng) (sim : Sim) (p : Player) :
    (spawnFoodFromDeadPlayer rng sim p).st.timestamp = sim.st.timestamp := rfl

lemma spawnFoodR_timestamp (rng : Rng) (sim : Sim) :
    (spawnFoodR rng sim).st.timestamp = sim.st.timestamp := rfl

lemma replenish_timestamp (rng : Rng) (sim : Sim) :
    (replenish rng sim).st.timestamp = sim.st.timestamp := by
  unfold replenish
  split <;> rfl

lemma collideOther_timestamp (rng : Rng) (p : Player) (head : Vector2)
    (k : String) (sim : Sim) (ok : String) :
    (collideOther rng p head k sim ok).st.timestamp = sim.st.timestamp := by
  unfold collideOther
  split
  · rfl
  · split
    · rfl
    · split
      · exact (spawnFoodFromDeadPlayer_timestamp _ _ _).trans
          (killPlayer_timestamp sim.st k)
      · rfl

lemma foldl_collideOther_timestamp (rng : Rng) (p : Player) (head : Vector2)
    (k : String) : ∀ (l : List String) (sim : Sim),
    (l.foldl (collideOther rng p head k) sim).st.timestamp = sim.st.timestamp := by
  intro l
  induction l with
  | nil => intro sim; rfl
  | cons a t ih =>
      intro sim
      rw [List.foldl_cons, ih, collideOther_timestamp]

lemma checkPlayerCollisions_timestamp (rng : Rng) (k : String) (sim sim2 : Sim)
    (h : checkPlayerCollisions rng k sim = some sim2) :
    sim2.st.timestamp = sim.st.timestamp := by
  unfold checkPlayerCollisions at h
  split at h
  · cases h
    rfl
  · split at h
    · cases h
      rfl
    · split at h
      · cases h
      · split at h
        · cases h
          exact (spawnFoodFromDeadPlayer_timestamp _ _ _).trans
            ((killPlayer_timestamp _ _).trans
              (foldl_collideOther_timestamp _ _ _ _ _ _))
        · cases h
          exact foldl_collideOther_timestamp _ _ _ _ _ _

lemma tickPlayer_timestamp (rng : Rng) (trig : Trig) (sim : Sim) (k : String)
    (sim2 : Sim) (h : tickPlayer rng trig sim k = some sim2) :
    sim2.st.timestamp = sim.st.timestamp := by
  unfold tickPlayer at h
  split at h
  · cases h
    rfl
  · split at h
    · cases h
      rfl
    · rw [checkPlayerCollisions_timestamp _ _ _ _ h]
      exact movePlayer_timestamp _ _ _

lemma runSeq_timestamp (f : Sim → String → Option Sim)
    (hf : ∀ sm k sm2, f sm k = some sm2 → sm2.st.timestamp = sm.st.timestamp) :
    ∀ (l : List String) (sim sim2 : Sim), runSeq f sim l = some sim2 →
      sim2.st.timestamp = sim.st.timestamp := by
  intro l
  induction l with
  | nil =>
      intro sim sim2 h
      rw [runSeq] at h
      cases h
      rfl
  | cons a t ih =>
      intro sim sim2 h
      rw [runSeq] at h
      split at h
      · cases h
      · next sm1 heq =>
          rw [ih sm1 sim2 h, hf sim a sm1 heq]

/-- C9 (amended): the tick never touches World.timestamp — whenever
gameLoop succeeds, the resulting timestamp equals the incoming one (the
source never writes the field, so it stays at its initial 0 forever). -/
theorem gameLoop_preserves_timestamp (rng : Rng) (trig : Trig) (sim sim2 : Sim)
    (h : gameLoop rng trig sim = some sim2) :
    sim2.st.timestamp = sim.st.timestamp := by
  unfold gameLoop at h
  split at h
  · cases h
  · next sim1 heq =>
      cases h
      rw [replenish_timestamp]
      exact runSeq_timestamp _ (fun sm k sm2 hh =>
        tickPlayer_timestamp rng trig sm k sm2 hh) _ sim sim1 heq

/-- C9 witness: the timestamp preservation theorem applied to the empty
world, whose tick returns it unchanged. -/
theorem gameLoop_preserves_timestamp_witness :
    gameLoop rngFix axisTrig simC9 = some simC9 ∧
      simC9.st.timestamp = simC9.st.timestamp :=
  ⟨by decide, gameLoop_preserves_timestamp rngFix axisTrig simC9 simC9 (by decide)⟩

lemma movePlayer_dead (trig : Trig) (s : SnakeGameState) (k : String)
    (p : Player) (hp : mget s.players k = some p) (hdead : p.alive = false) :
    movePlayer trig s k = s := by
  unfold movePlayer
  rw [hp]
  dsimp only
  rw [movePlayerP, if_pos (Or.inl hdead), mset_eq_self s.players k p hp]

lemma checkPlayerCollisions_dead (rng : Rng) (k : String) (sim : Sim)
    (p : Player) (hp : mget sim.st.players k = some p)
    (hdead : p.alive = false) :
    checkPlayerCollisions rng k sim = some sim := by
  unfold checkPlayerCollisions
  rw [hp]
  dsimp only
  rw [if_pos hdead]

/-- C1 (amended): the implemented tick is the per-player interleaving of
movement and collision checking in map insertion order — a collision
check observes post-movement positions for the checked player and the
players processed before it, but pre-movement positions for the players
processed after it.  It coincides with the two-phase reference tick
(move all, then collide all, then replenish) whenever the room holds at
most one player. -/
theorem gameLoop_two_phase_single (rng : Rng) (trig : Trig) (sim : Sim)
    (h : sim.st.players.length ≤ 1) :
    gameLoop rng trig sim = specTwoPhaseTick rng trig sim := by
  have heta : (⟨sim.st, sim.spawnN, sim.deadN⟩ : Sim) = sim := rfl
  rcases hpl : sim.st.players with _ | ⟨⟨k, p⟩, rest⟩
  · unfold gameLoop specTwoPhaseTick
    rw [hpl]
    rfl
  · rcases rest with _ | ⟨b, t⟩
    · have hmk : mget sim.st.players k = some p := by
        rw [hpl]
        simp [mget]
      by_cases hpa : p.alive = false
      · have hmv := movePlayer_dead trig sim.st k p hmk hpa
        have hck := checkPlayerCollisions_dead rng k sim p hmk hpa
        have htp : tickPlayer rng trig sim k = some sim := by
          unfold tickPlayer
          rw [hmk]
          dsimp only
          rw [if_pos hpa]
        unfold gameLoop specTwoPhaseTick
        rw [hpl]
        dsimp only [List.map, List.foldl]
        simp only [runSeq, htp, hmv, heta, hck]
      · have htp : tickPlayer rng trig sim k =
            checkPlayerCollisions rng k ⟨movePlayer trig sim.st k, sim.spawnN, sim.deadN⟩ := by
          unfold tickPlayer
          rw [hmk]
          dsimp only
          rw [if_neg hpa]
        unfold gameLoop specTwoPhaseTick
        rw [hpl]
        dsimp only [List.map, List.foldl]
        simp only [runSeq, htp]
    · exfalso
      rw [hpl] at h
      simp at h

/-- C1 world for the amended-theorem witness: the same first player
alone in the room. -/
def simW1 : Sim := ⟨⟨[("a", playerA1)], [], 8000, 8000, 0, 16, 0⟩, 0, 0⟩

/-- C1 witness: the single-player equivalence applied to the concrete
one-player world. -/
theorem gameLoop_two_phase_single_witness :
    gameLoop rngFix axisTrig simW1 = specTwoPhaseTick rngFix axisTrig simW1 ∧
      simW1.st.players.length ≤ 1 :=
  ⟨gameLoop_two_phase_single rngFix axisTrig simW1 (by decide), by decide⟩

end Snake
